import Mathlib

/-!
Verification development for the HC Recalls DynamoDB loader (src/index.js).

The source is dynamically-typed JavaScript; JSON values are embedded as the
mutual inductive family `JVal`/`JArr`/`JObj` below (arrays and objects carry
their elements through dedicated list-like types so that every function over
them is structural and evaluates inside the kernel).  The `DataLoader.start`
method, the `htmlStripper`, the record mapper, the chunking loop and the
fetch/clean stage loops are each transcribed from the source; remote calls
(DynamoDB, the recalls API, the interactive prompt) are oracles supplied
through an environment record, and the observable behaviour of a run is a
trace of effect events plus an outcome value.
-/

mutual
/-- A JSON value as manipulated by the loader.  `null` doubles for JS `null`;
JS `undefined` is modelled as `Option.none` at the points where it can occur
(property lookups). -/
inductive JVal where
  | str (s : String)
  | num (n : Int)
  | bool (b : Bool)
  | null
  | arr (xs : JArr)
  | obj (kvs : JObj)
deriving DecidableEq, Repr

/-- A JSON array (the elements of a `JVal.arr`). -/
inductive JArr where
  | nil
  | cons (v : JVal) (rest : JArr)
deriving DecidableEq, Repr

/-- A JSON object: an ordered sequence of key/value bindings (JS objects keep
insertion order; the loader never creates duplicate keys). -/
inductive JObj where
  | nil
  | cons (k : String) (v : JVal) (rest : JObj)
deriving DecidableEq, Repr
end

/-- Build a `JObj` from a list of bindings (notation helper). -/
def objOf : List (String × JVal) → JObj
  | [] => .nil
  | (k, v) :: rest => .cons k v (objOf rest)

/-- Build a `JArr` from a list of values (notation helper). -/
def arrOf : List JVal → JArr
  | [] => .nil
  | v :: rest => .cons v (arrOf rest)

/-- JS property lookup `o[key]` on a plain object: the first binding for the
key, or `none` for JS `undefined` when the key is absent. -/
def JObj.find : JObj → String → Option JVal
  | .nil, _ => none
  | .cons k v rest, key => if k = key then some v else rest.find key

/-- Whether a JS object has no own enumerable keys; `R.keys o` has truthy
`length` exactly when this is `false`. -/
def JObj.isEmptyB : JObj → Bool
  | .nil => true
  | .cons _ _ _ => false

/-- The key list of an object, in insertion order. -/
def JObj.keysOf : JObj → List String
  | .nil => []
  | .cons k _ rest => k :: rest.keysOf

/-- JS truthiness of a JSON value ("" , 0, false and null are falsy; every
array and every object is truthy). -/
def truthy : JVal → Bool
  | .str s => s != ""
  | .num n => n != 0
  | .bool b => b
  | .null => false
  | .arr _ => true
  | .obj _ => true

/-- JS truthiness of a possibly-undefined value (`none` is `undefined`,
which is falsy). -/
def truthyOpt : Option JVal → Bool
  | none => false
  | some v => truthy v

mutual
/-- Model of the external `AWS.DynamoDB.Converter.input` used by
`mapRequest` (src/index.js line 117).  Per the AWS SDK (and spec section 4.1):
a string becomes `{S: value}`, a number `{N: stringified value}`, a boolean
`{BOOL: value}`, null `{NULL: true}`, and lists/maps recurse as `{L: ...}` /
`{M: ...}`. -/
def converterInput : JVal → JVal
  | .str s => .obj (objOf [("S", .str s)])
  | .num n => .obj (objOf [("N", .str (toString n))])
  | .bool b => .obj (objOf [("BOOL", .bool b)])
  | .null => .obj (objOf [("NULL", .bool true)])
  | .arr xs => .obj (objOf [("L", .arr (converterArr xs))])
  | .obj kvs => .obj (objOf [("M", .obj (converterObj kvs))])

/-- Elementwise conversion of a JSON array for `converterInput`. -/
def converterArr : JArr → JArr
  | .nil => .nil
  | .cons v rest => .cons (converterInput v) (converterArr rest)

/-- Valuewise conversion of a JSON object for `converterInput`. -/
def converterObj : JObj → JObj
  | .nil => .nil
  | .cons k v rest => .cons k (converterInput v) (converterObj rest)
end

namespace DataLoader

/-- Transcription of the body of `DataLoader.mapRequest` (src/index.js lines
115-121): `for (let prop in Item) Item[prop] = AWS.DynamoDB.Converter.input(Item[prop])`.
The loop walks the record's own enumerable properties in order and overwrites
each value with its wire-format conversion; this definition computes the
object those assignments produce. -/
def mapRequestLoop : JObj → JObj
  | .nil => .nil
  | .cons k v rest => .cons k (converterInput v) (mapRequestLoop rest)

/-- The value `mapRequest` returns (`return Item`, line 120): the object left
by the conversion loop. -/
def mapRequest (item : JObj) : JObj := mapRequestLoop item

/-- The state of the caller's record object after `mapRequest` returns.  The
loop assigns through `Item[prop]` on the argument itself and the method
returns that same reference, so the post-call object is the converted object,
not the original one. -/
def mapRequestPost (item : JObj) : JObj := mapRequestLoop item

end DataLoader

/-- One pass of the chunking loop of `DataLoader.start` (src/index.js lines
174-184): `while (request.RequestItems[table].length > 0) multiRequest.push(
{RequestItems: {[table]: ...splice(0, 25)}})`.  `splice(0, 25)` removes and
returns the first 25 elements (fewer at the tail), so every iteration removes
at least one element; the loop is bounded here by a fuel argument that the
wrapper instantiates with the initial length, which always suffices. -/
def spliceGo {α : Type} : Nat → List α → List (List α)
  | _, [] => []
  | 0, _ :: _ => []
  | fuel + 1, x :: xs => (x :: xs).take 25 :: spliceGo fuel ((x :: xs).drop 25)

/-- The chunk list produced by the splice loop on a given array. -/
def spliceChunks {α : Type} (l : List α) : List (List α) := spliceGo l.length l

/-- The partition decision of `DataLoader.start` (src/index.js lines
161-185): `multiRequest` stays `false` — i.e. the single request holding the
whole input is used — unless the array holds more than 25 items, in which
case the splice loop chunks it. -/
def partitionModel {α : Type} (l : List α) : List α ⊕ List (List α) :=
  if 25 < l.length then .inr (spliceChunks l) else .inl l

/-- Characters surviving a rescan of an unclosed tag buffer: a buffer that
contains no '>' can never complete a tag match, so rescanning it only removes
the line-break characters. -/
def stripFlush (buf : List Char) : List Char :=
  buf.filter (fun c => c != '\n' && c != '\r')

/-- Global replacement of `/(<([^>]+)>)|\r?\n|\r/ig` with "" (src/index.js
line 342), as a left-to-right scan.  The regex engine tries, at each
position: first `<([^>]+)>` — a '<', then one or more characters none of
which is '>' (greedily, so the match closes at the first following '>'),
then that '>'; next `\r?\n`; next `\r`.  A match is deleted and scanning
resumes after it; otherwise the character is kept and scanning moves on one
position.  The second argument is the scanner state: `none` outside any
candidate tag, `some buf` when a '<' has been read and `buf` holds the
characters seen since.  On '>' with a non-empty buffer the whole candidate
is a tag match and is dropped; on '>' immediately after '<' the pattern
`[^>]+` has nothing to match, so both characters are kept; at end of input
an open candidate never matched, so its '<' is kept and the buffered
characters are rescanned (equivalently: their line breaks are removed, since
the buffer cannot contain '>'). -/
def stripCore : List Char → Option (List Char) → List Char
  | [], none => []
  | [], some buf => '<' :: stripFlush buf
  | c :: cs, none =>
    if c = '<' then stripCore cs (some [])
    else if c = '\n' ∨ c = '\r' then stripCore cs none
    else c :: stripCore cs none
  | c :: cs, some buf =>
    if c = '>' then
      if buf.isEmpty then '<' :: '>' :: stripCore cs none
      else stripCore cs none
    else stripCore cs (some (buf ++ [c]))

/-- `data.replace(/(<([^>]+)>)|\r?\n|\r/ig, "")` on a string value. -/
def stripString (s : String) : String := String.mk (stripCore s.data none)

mutual
/-- Transcription of `htmlStripper` (src/index.js lines 340-354): strings are
regex-replaced; arrays are mapped elementwise (`R.map(htmlStripper, data)`);
objects are rewritten property by property (`for (let prop in data)`).
`typeof null === 'object'` in JS, but the `for..in` loop over `null` has no
iterations, so `null` — like numbers and booleans — comes back unchanged. -/
def htmlStripper : JVal → JVal
  | .str s => .str (stripString s)
  | .num n => .num n
  | .bool b => .bool b
  | .null => .null
  | .arr xs => .arr (htmlStripperArr xs)
  | .obj kvs => .obj (htmlStripperObj kvs)

/-- Elementwise `htmlStripper` over a JSON array. -/
def htmlStripperArr : JArr → JArr
  | .nil => .nil
  | .cons v rest => .cons (htmlStripper v) (htmlStripperArr rest)

/-- Valuewise `htmlStripper` over a JSON object. -/
def htmlStripperObj : JObj → JObj
  | .nil => .nil
  | .cons k v rest => .cons k (htmlStripper v) (htmlStripperObj rest)
end

mutual
/-- No string leaf of the value contains a line-break character. -/
def noBreaksVal : JVal → Bool
  | .str s => s.data.all (fun c => c != '\n' && c != '\r')
  | .num _ => true
  | .bool _ => true
  | .null => true
  | .arr xs => noBreaksArr xs
  | .obj kvs => noBreaksObj kvs

/-- `noBreaksVal` over every element of an array. -/
def noBreaksArr : JArr → Bool
  | .nil => true
  | .cons v rest => noBreaksVal v && noBreaksArr rest

/-- `noBreaksVal` over every value of an object. -/
def noBreaksObj : JObj → Bool
  | .nil => true
  | .cons _ v rest => noBreaksVal v && noBreaksObj rest
end

/-- The hard-coded target table name (src/index.js line 17). -/
def TABLE_NAME : String := "RecallsTestData-EN"

/-- The fixed `createTable` parameters (src/index.js lines 137-149): hash key
`recallId` of type string, provisioned throughput 1 read / 1 write. -/
def createTableParams : JVal :=
  .obj (objOf [
    ("TableName", .str TABLE_NAME),
    ("KeySchema", .arr (arrOf
      [.obj (objOf [("AttributeName", .str "recallId"), ("KeyType", .str "HASH")])])),
    ("AttributeDefinitions", .arr (arrOf
      [.obj (objOf [("AttributeName", .str "recallId"), ("AttributeType", .str "S")])])),
    ("ProvisionedThroughput", .obj (objOf
      [("ReadCapacityUnits", .num 1), ("WriteCapacityUnits", .num 1)]))])

/-- Case folding for the three letters the confirmation regex can match. -/
def lowerYES (c : Char) : Char :=
  if c = 'Y' then 'y' else if c = 'E' then 'e' else if c = 'S' then 's' else c

/-- The operator-confirmation test `/^y(?:es)?$/i.test(answer)` (src/index.js
line 136): the whole answer must be "y" or "yes" in any letter case. -/
def isYes (s : String) : Bool :=
  match s.data.map lowerYES with
  | ['y'] => true
  | ['y', 'e', 's'] => true
  | _ => false

/-- The `${this.category}` fragment of the debug file name: top-level loaders
are built with a numeric category; a loader built without one (the retry
constructor passes only three arguments) interpolates `undefined`. -/
def categoryTag : Option Nat → String
  | some n => toString n
  | none => "undefined"

deriving instance DecidableEq for Except

/-- An error raised during a run: either a rejection delivered by one of the
remote-call oracles, or a JS `ReferenceError` for reading a variable in its
temporal dead zone. -/
inductive JsErr where
  | oracleErr (msg : String)
  | refError (name : String)
deriving DecidableEq, Repr

/-- The outcome of one `batchWriteItem` call: DynamoDB always answers with an
`UnprocessedItems` object mapping table names to the write requests it did
not process (empty object when everything was accepted). -/
structure BWResult where
  unprocessedItems : JObj
deriving DecidableEq, Repr

/-- The shape of `this.data`: a top-level loader receives the JSON array read
from the staging file (a list of record objects); a retry loader receives the
`UnprocessedItems` object itself (src/index.js lines 218, 239 pass that map
as the `data` argument). -/
inductive JSData where
  | arrData (recs : List JObj)
  | objData (kvs : JObj)
deriving DecidableEq, Repr

/-- A value stored on the `DataLoader` instance by its constructor. -/
inductive PropVal where
  | dataV (d : JSData)
  | strV (s : String)
  | numV (n : Nat)
  | undefV
  | helperV
  | fnV (name : String)
deriving DecidableEq, Repr

/-- The instance properties assigned by the `DataLoader` constructor
(src/index.js lines 51-86), in assignment order: `data`, `table`, `category`,
`textInterval`, `dots`, `dynamoHelper`, and the three promisified client
methods.  The `config` argument is captured only by the `dynamoHelper`
client closure (line 59); no statement of the class assigns a `dynamoConfig`
property. -/
def mkLoaderProps (data : JSData) (table : String) (category : Option Nat) :
    List (String × PropVal) :=
  [("data", .dataV data),
   ("table", .strV table),
   ("category", match category with | some n => .numV n | none => .undefV),
   ("textInterval", .undefV),
   ("dots", .strV "..."),
   ("dynamoHelper", .helperV),
   ("batchWriteItem", .fnV "batchWriteItem"),
   ("listTables", .fnV "listTables"),
   ("createTable", .fnV "createTable")]

/-- JS property read `this.name` on the instance: the assigned value, or
`none` for `undefined` when no such property was ever assigned. -/
def getProp (props : List (String × PropVal)) (name : String) : Option PropVal :=
  match props with
  | [] => none
  | (k, v) :: rest => if k = name then some v else getProp rest name

/-- The `RequestItems[table]` payload of a batch-write request: an array of
put requests for a top-level loader, or — when a retry loader's `data` is
the `UnprocessedItems` object — the object `R.map` returns. -/
inductive ReqItems where
  | arrItems (ps : List JVal)
  | objItems (m : JObj)
deriving DecidableEq, Repr

/-- A batch-write request `{RequestItems: {[table]: items}}`. -/
structure BWReq where
  table : String
  items : ReqItems
deriving DecidableEq, Repr

/-- Wrap a mapped record as `{PutRequest: {Item: record}}` (line 165). -/
def putWrap (v : JVal) : JVal :=
  .obj (objOf [("PutRequest", .obj (objOf [("Item", v)]))])

/-- `mapRequest` applied to a value that need not be a record object, as
happens when a retry loader's `data` is the `UnprocessedItems` map and
`R.map` hands each of its values (arrays of write requests) to the mapper:
`for..in` over an object rewrites its values, over an array rewrites its
elements, and over a primitive has no iterations. -/
def mapRequestDyn : JVal → JVal
  | .obj kvs => .obj (DataLoader.mapRequestLoop kvs)
  | .arr xs => .arr (converterArr xs)
  | v => v

/-- Valuewise `R.map` of the put-request wrapper over an object-shaped
`data`. -/
def buildItemsObj : JObj → JObj
  | .nil => .nil
  | .cons k v rest => .cons k (putWrap (mapRequestDyn v)) (buildItemsObj rest)

/-- Building `request.RequestItems[this.table]` (src/index.js lines 163-167):
`R.map(Item => ({PutRequest: {Item: this.mapRequest(Item)}}), this.data)`.
Over an array `R.map` yields an array; over an object it yields an object
with the same keys and mapped values. -/
def buildItems : JSData → ReqItems
  | .arrData recs => .arrItems (recs.map (fun r => putWrap (.obj (DataLoader.mapRequest r))))
  | .objData kvs => .objItems (buildItemsObj kvs)

/-- The chunking decision (src/index.js lines 169-185): the JS test is
`request.RequestItems[this.table].length > 25`.  On an array that compares
its length; on an object `.length` reads the `length` property, which is
`undefined` for the objects reachable here, and `undefined > 25` is false —
so only an array of more than 25 put requests is spliced into chunks. -/
def chunksOf (data : JSData) : Option (List (List JVal)) :=
  match buildItems data with
  | .arrItems ps => if 25 < ps.length then some (spliceChunks ps) else none
  | .objItems _ => none

/-- What the dry run writes: the chunk list when the request was split
(`multiRequest.length` truthy), otherwise the single request object
(src/index.js line 191). -/
inductive DryContent where
  | single (req : BWReq)
  | multi (reqs : List BWReq)
deriving DecidableEq, Repr

/-- The JSON written by `run(true)` for a given table and data set. -/
def dryContentOf (table : String) (data : JSData) : DryContent :=
  match chunksOf data with
  | some cs => .multi (cs.map (fun ch => ⟨table, .arrItems ch⟩))
  | none => .single ⟨table, buildItems data⟩

/-- The externally visible effects of a run, in order: `createTable` calls,
debug-file writes, `batchWriteItem` submissions, and retry-loader
constructions (recorded with the `data`, `table` and AWS-config arguments
passed to `new DataLoader`).  Console output and the progress ticker carry
no state and are not traced; caught errors appear in the outcome instead. -/
inductive Ev where
  | createTableEv (params : JVal)
  | writeFileEv (path : String) (content : DryContent)
  | batchWriteEv (req : BWReq)
  | spawnChildEv (childData : JObj) (table : String) (cfg : Option PropVal)
deriving DecidableEq, Repr

/-- How a call to `start` ends.  `threw` marks a rejection outside the
`try` block (lines 130-158), which propagates to the caller; `uploadFailed`
marks the `catch` branch (lines 244-249), which prints the error dump and
resolves normally; `outOfFuel` is only a bound on the modelled retry
recursion, which the source does not cap. -/
inductive RunOutcome where
  | tableCreationPending
  | aborted
  | dryRunComplete
  | uploadComplete
  | uploadFailed (e : JsErr)
  | threw (e : JsErr)
  | outOfFuel
deriving DecidableEq, Repr

/-- The remote collaborators of one run, as oracles: the table listing the
datastore answers with (or a rejection), the operator's prompt answer, the
`createTable` outcome, and the result of the n-th `batchWriteItem` call of
the run (calls are numbered globally across retry waves by a cursor). -/
structure LoaderEnv where
  tables : Except JsErr (List String)
  promptAnswer : String
  createRes : Except JsErr Unit
  batch : Nat → Except JsErr BWResult

/-- The sequential chunk-submission loop (src/index.js lines 202-205): each
chunk is submitted with `await`, results are collected in order, and a
rejection aborts the loop at once, leaving the remaining chunks
unsubmitted.  Returns the submission events, the next call cursor, and
either the collected results or the first error. -/
def runChunks (env : LoaderEnv) (table : String) :
    List (List JVal) → Nat → List Ev × Nat × Except JsErr (List BWResult)
  | [], c => ([], c, .ok [])
  | ch :: rest, c =>
    match env.batch c with
    | .error e => ([.batchWriteEv ⟨table, .arrItems ch⟩], c + 1, .error e)
    | .ok r =>
      match runChunks env table rest (c + 1) with
      | (evs, c2, .error e) => (.batchWriteEv ⟨table, .arrItems ch⟩ :: evs, c2, .error e)
      | (evs, c2, .ok rs) => (.batchWriteEv ⟨table, .arrItems ch⟩ :: evs, c2, .ok (r :: rs))

namespace DataLoader

/-- Transcription of `DataLoader.start` (src/index.js lines 128-252).
Control flow, in source order: (1) `listTables`, whose rejection propagates
(it is awaited outside the `try`); (2) if the listing lacks `TABLE_NAME`,
prompt — on a `/^y(?:es)?$/i` answer issue one `createTable` and return, else
return aborted — in either case without building or submitting anything;
(3) build the put requests and chunk them when more than 25; (4) on a dry
run, write the request(s) to `./_raw/{category}-DEBUG.json` and return;
(5) otherwise submit.  In the multi-chunk branch a rejection anywhere aborts
into the `catch`; when all chunks succeed, any result whose
`UnprocessedItems.length` is truthy makes the handler read the identifier
`result`, which at that point is an undeclared `const` in its temporal dead
zone (line 217), so a `ReferenceError` rejects `Promise.all` and lands in the
`catch`.  In the single-request branch, a non-empty `UnprocessedItems`
object logs a warning, and the retry runs only if `UnprocessedItems.length`
is truthy — the property lookup on the map — in which case a new loader is
constructed with `(result.UnprocessedItems, this.table, this.dynamoConfig)`
and `start()` is awaited with no argument (dry never propagates).  A child
rejection is caught by the parent's `catch`; otherwise the parent resolves.
`fuel` bounds only the retry recursion depth, which the source leaves
unbounded. -/
def start : Nat → LoaderEnv → Nat → JSData → String → Option Nat → Bool →
    List Ev × RunOutcome × Nat
  | 0, _, cursor, _, _, _, _ => ([], .outOfFuel, cursor)
  | fuel + 1, env, cursor, data, table, category, dry =>
    match env.tables with
    | .error e => ([], .threw e, cursor)
    | .ok tableList =>
      if TABLE_NAME ∉ tableList then
        if isYes env.promptAnswer then
          match env.createRes with
          | .error e => ([.createTableEv createTableParams], .threw e, cursor)
          | .ok _ => ([.createTableEv createTableParams], .tableCreationPending, cursor)
        else ([], .aborted, cursor)
      else if dry then
        ([.writeFileEv ("./_raw/" ++ categoryTag category ++ "-DEBUG.json")
            (dryContentOf table data)], .dryRunComplete, cursor)
      else
        match chunksOf data with
        | some cs =>
          match runChunks env table cs cursor with
          | (evs, c2, .error e) => (evs, .uploadFailed e, c2)
          | (evs, c2, .ok results) =>
            if results.any (fun r => truthyOpt (r.unprocessedItems.find "length")) then
              (evs, .uploadFailed (.refError "result"), c2)
            else (evs, .uploadComplete, c2)
        | none =>
          match env.batch cursor with
          | .error e => ([.batchWriteEv ⟨table, buildItems data⟩], .uploadFailed e, cursor + 1)
          | .ok r =>
            if r.unprocessedItems.isEmptyB then
              ([.batchWriteEv ⟨table, buildItems data⟩], .uploadComplete, cursor + 1)
            else if truthyOpt (r.unprocessedItems.find "length") then
              match start fuel env (cursor + 1) (.objData r.unprocessedItems) table none false with
              | (cEvs, .threw e, c2) =>
                (.batchWriteEv ⟨table, buildItems data⟩ ::
                  .spawnChildEv r.unprocessedItems table
                    (getProp (mkLoaderProps data table category) "dynamoConfig") :: cEvs,
                 .uploadFailed e, c2)
              | (cEvs, .outOfFuel, c2) =>
                (.batchWriteEv ⟨table, buildItems data⟩ ::
                  .spawnChildEv r.unprocessedItems table
                    (getProp (mkLoaderProps data table category) "dynamoConfig") :: cEvs,
                 .outOfFuel, c2)
              | (cEvs, _, c2) =>
                (.batchWriteEv ⟨table, buildItems data⟩ ::
                  .spawnChildEv r.unprocessedItems table
                    (getProp (mkLoaderProps data table category) "dynamoConfig") :: cEvs,
                 .uploadComplete, c2)
            else ([.batchWriteEv ⟨table, buildItems data⟩], .uploadComplete, cursor + 1)

end DataLoader

/-- Observable steps of the fetch and clean stages: attempting the remote
fetch for a category, attempting the staging-file read for a category,
writing a staging file, and the `catch` handler logging an error. -/
inductive StageEv where
  | fetchEv (cat : Nat)
  | readFileEv (cat : Nat)
  | writeStageFileEv (path : String) (content : List JVal)
  | stageLogErrorEv (e : JsErr)
deriving DecidableEq, Repr

/-- The category loop of `getRecentData` (src/index.js lines 287-294) run on
a list of category indices, with `fetch(...).json().results` supplied by the
oracle `f`.  The `try { ... } catch` of lines 279-298 wraps the whole loop,
so the first rejection jumps to the `catch`, which logs the error; no later
iteration runs.  (The `_raw` directory bookkeeping and a `writeFileSync`
failure, both unexercised here, are not modelled.) -/
def getRecentLoop (f : Nat → Except JsErr (List JVal)) : List Nat → List StageEv
  | [] => []
  | i :: rest =>
    .fetchEv i ::
      match f i with
      | .error e => [.stageLogErrorEv e]
      | .ok d =>
        .writeStageFileEv ("./_raw/" ++ toString i ++ ".json") d :: getRecentLoop f rest

/-- `getRecentData`: the loop over categories 1 to 4. -/
def getRecentDataModel (f : Nat → Except JsErr (List JVal)) : List StageEv :=
  getRecentLoop f [1, 2, 3, 4]

/-- The category loop of `cleanData` (src/index.js lines 362-368) on a list
of category indices, with `JSON.parse(readFileSync(...))` supplied by the
oracle `rd`.  Again the `try { ... } catch` of lines 361-372 wraps the whole
loop: the first failing read (or parse) logs and ends the stage.  A
successful read is mapped through `htmlStripper` and written to the
`-stripped` staging file. -/
def cleanLoop (rd : Nat → Except JsErr (List JVal)) : List Nat → List StageEv
  | [] => []
  | i :: rest =>
    .readFileEv i ::
      match rd i with
      | .error e => [.stageLogErrorEv e]
      | .ok d =>
        .writeStageFileEv ("./_raw/" ++ toString i ++ "-stripped.json")
            (d.map htmlStripper) :: cleanLoop rd rest

/-- `cleanData`: the loop over categories 1 to 4. -/
def cleanDataModel (rd : Nat → Except JsErr (List JVal)) : List StageEv :=
  cleanLoop rd [1, 2, 3, 4]

/-- A one-field recall record used as concrete input. -/
def recA : JObj := objOf [("recallId", JVal.str "r1")]

/-- A realistic wave-1 `UnprocessedItems` object: the target table mapped to
the rejected write request, exactly the shape DynamoDB answers with. -/
def unprocA : JObj :=
  objOf [(TABLE_NAME, JVal.arr (arrOf [putWrap (JVal.obj (DataLoader.mapRequest recA))]))]

/-- Environment for the retry-termination scenario: the table exists, wave 1
marks `recA` unprocessed, and any later submission accepts everything. -/
def envRetry : LoaderEnv where
  tables := .ok [TABLE_NAME]
  promptAnswer := "n"
  createRes := .ok ()
  batch := fun n => if n = 0 then .ok ⟨unprocA⟩ else .ok ⟨.nil⟩

/-- Twenty-six copies of `recA`: a data set that needs two chunks. -/
def recs26 : List JObj := List.replicate 26 recA

/-- Environment whose first submission rejects with a transport error and
whose later submissions would succeed. -/
def envErr1 : LoaderEnv where
  tables := .ok [TABLE_NAME]
  promptAnswer := "n"
  createRes := .ok ()
  batch := fun n => if n = 0 then .error (.oracleErr "throttle") else .ok ⟨.nil⟩

/-- Environment where every submission succeeds with nothing unprocessed. -/
def envOk : LoaderEnv where
  tables := .ok [TABLE_NAME]
  promptAnswer := "n"
  createRes := .ok ()
  batch := fun _ => .ok ⟨.nil⟩

/-- Environment with the target table missing and a confirming operator. -/
def envMissYes : LoaderEnv where
  tables := .ok ["OtherTable"]
  promptAnswer := "YES"
  createRes := .ok ()
  batch := fun _ => .ok ⟨.nil⟩

/-- Environment with the target table missing and a declining operator. -/
def envMissNo : LoaderEnv where
  tables := .ok ["OtherTable"]
  promptAnswer := "n"
  createRes := .ok ()
  batch := fun _ => .ok ⟨.nil⟩

/-- An `UnprocessedItems` object that carries a binding named `length`: the
only shape on which the retry guard `result.UnprocessedItems.length` is
truthy, so the run it drives does construct a retry loader. -/
def unprocLen : JObj :=
  .cons TABLE_NAME (.arr (arrOf [putWrap (JVal.obj (DataLoader.mapRequest recA))]))
    (.cons "length" (.num 1) .nil)

/-- Environment whose wave-1 result is `unprocLen`, making the retry-spawn
branch reachable; the retry wave's submission accepts everything. -/
def envSpawn : LoaderEnv where
  tables := .ok [TABLE_NAME]
  promptAnswer := "n"
  createRes := .ok ()
  batch := fun n => if n = 0 then .ok ⟨unprocLen⟩ else .ok ⟨.nil⟩

/-- Fetch oracle failing exactly on category 2. -/
def fetchFail2 : Nat → Except JsErr (List JVal) :=
  fun i => if i = 2 then .error (.oracleErr "network") else .ok []

/-- Read oracle failing exactly on category 2. -/
def readFail2 : Nat → Except JsErr (List JVal) :=
  fun i => if i = 2 then .error (.oracleErr "ENOENT") else .ok []

/-- Event predicate: this event is not a `batchWriteItem` submission. -/
def noBatchEv : Ev → Bool
  | .batchWriteEv _ => false
  | _ => true

/-- Event predicate: if this event is a retry-loader construction, the AWS
configuration argument it received is `undefined`. -/
def spawnCfgNone : Ev → Bool
  | .spawnChildEv _ _ cfg => cfg.isNone
  | _ => true

/-- The put-request array built from `recs26` (26 identical records). -/
def ps26 : List JVal := recs26.map (fun r => putWrap (.obj (DataLoader.mapRequest r)))

theorem spliceGo_join {α : Type} :
    ∀ (fuel : Nat) (l : List α), l.length ≤ fuel → (spliceGo fuel l).flatten = l := by
  intro fuel
  induction fuel with
  | zero =>
    intro l h
    have hl : l = [] := List.eq_nil_of_length_eq_zero (Nat.le_zero.mp h)
    subst hl; rfl
  | succ n ih =>
    intro l h
    cases l with
    | nil => rfl
    | cons x xs =>
      have hlen : ((x :: xs).drop 25).length ≤ n := by
        simp only [List.length_drop, List.length_cons] at *
        omega
      simp only [spliceGo, List.flatten_cons, ih _ hlen]
      exact List.take_append_drop 25 (x :: xs)

theorem spliceGo_mem_le {α : Type} :
    ∀ (fuel : Nat) (l : List α) (c : List α), c ∈ spliceGo fuel l → c.length ≤ 25 := by
  intro fuel
  induction fuel with
  | zero => intro l c hc; cases l <;> simp [spliceGo] at hc
  | succ n ih =>
    intro l c hc
    cases l with
    | nil => simp [spliceGo] at hc
    | cons x xs =>
      simp only [spliceGo, List.mem_cons] at hc
      rcases hc with rfl | hc
      · have := List.length_take 25 (x :: xs)
        omega
      · exact ih _ _ hc

theorem spliceGo_count {α : Type} :
    ∀ (fuel : Nat) (l : List α), l.length ≤ fuel → l ≠ [] →
      (spliceGo fuel l).length = (l.length + 24) / 25 := by
  intro fuel
  induction fuel with
  | zero =>
    intro l h hne
    exact absurd (List.eq_nil_of_length_eq_zero (Nat.le_zero.mp h)) hne
  | succ n ih =>
    intro l h hne
    cases l with
    | nil => exact absurd rfl hne
    | cons x xs =>
      simp only [List.length_cons] at h
      by_cases h25 : xs.length + 1 ≤ 25
      · have hdrop : (x :: xs).drop 25 = [] := by
          apply List.drop_eq_nil_of_le
          simp only [List.length_cons]
          omega
        simp only [spliceGo, hdrop, List.length_cons, List.length_nil]
        omega
      · push_neg at h25
        have hlen2 : ((x :: xs).drop 25).length ≤ n := by
          simp only [List.length_drop, List.length_cons]
          omega
        have hne2 : (x :: xs).drop 25 ≠ [] := by
          intro hh
          have h3 := congrArg List.length hh
          simp only [List.length_drop, List.length_cons, List.length_nil] at h3
          omega
        simp only [spliceGo, List.length_cons]
        rw [ih _ hlen2 hne2]
        simp only [List.length_drop, List.length_cons]
        omega

theorem spliceChunks_join {α : Type} (l : List α) : (spliceChunks l).flatten = l :=
  spliceGo_join _ _ le_rfl

theorem spliceChunks_mem_le {α : Type} (l : List α) :
    ∀ ch ∈ spliceChunks l, ch.length ≤ 25 :=
  fun _ hc => spliceGo_mem_le _ _ _ hc

theorem spliceChunks_count {α : Type} (l : List α) (h : l ≠ []) :
    (spliceChunks l).length = (l.length + 24) / 25 :=
  spliceGo_count _ _ le_rfl h

theorem spliceChunks_eq_cons {α : Type} (x : α) (xs : List α) :
    spliceChunks (x :: xs) = (x :: xs).take 25 :: spliceGo xs.length ((x :: xs).drop 25) :=
  rfl

/-- C3.  Partition correctness: the chunking decision of `start` keeps an
input of at most 25 put requests as the single request itself (not a
one-element chunk list), while a larger input is spliced into
`ceil(N / 25)` chunks, each of length at most 25, whose concatenation is the
original sequence (order preserved). -/
theorem c3_partition_correct {α : Type} (l : List α) :
    (l.length ≤ 25 → partitionModel l = Sum.inl l) ∧
    (25 < l.length →
      partitionModel l = Sum.inr (spliceChunks l) ∧
      (spliceChunks l).length = (l.length + 24) / 25 ∧
      (∀ c ∈ spliceChunks l, c.length ≤ 25) ∧
      (spliceChunks l).flatten = l) := by
  constructor
  · intro h
    simp [partitionModel, Nat.not_lt.mpr h]
  · intro h
    have hne : l ≠ [] := by
      intro hl; subst hl; simp at h
    exact ⟨by simp [partitionModel, h],
           spliceChunks_count l hne,
           spliceChunks_mem_le l,
           spliceChunks_join l⟩

/-- Witness for C3 at a 5-element and a 26-element input. -/
theorem c3_partition_correct_witness :
    (partitionModel (List.range 5) = Sum.inl (List.range 5)) ∧
    (partitionModel (List.range 26) = Sum.inr (spliceChunks (List.range 26)) ∧
     (spliceChunks (List.range 26)).length = ((List.range 26).length + 24) / 25 ∧
     (∀ c ∈ spliceChunks (List.range 26), c.length ≤ 25) ∧
     (spliceChunks (List.range 26)).flatten = List.range 26) :=
  ⟨(c3_partition_correct (List.range 5)).1 (by decide),
   (c3_partition_correct (List.range 26)).2 (by decide)⟩

theorem stripFlush_all (buf : List Char) :
    (stripFlush buf).all (fun c => c != '\n' && c != '\r') = true := by
  rw [List.all_eq_true]
  intro c hc
  exact (List.mem_filter.mp hc).2

theorem stripCore_all :
    ∀ (l : List Char) (st : Option (List Char)),
      (stripCore l st).all (fun c => c != '\n' && c != '\r') = true := by
  intro l
  induction l with
  | nil =>
    intro st
    cases st with
    | none => rfl
    | some buf => simp [stripCore, List.all_cons, stripFlush_all]
  | cons c cs ih =>
    intro st
    cases st with
    | none =>
      by_cases h1 : c = '<'
      · simp [stripCore, h1, ih]
      · by_cases h2 : c = '\n' ∨ c = '\r'
        · simp [stripCore, h1, h2, ih]
        · push_neg at h2
          have hc : (c != '\n' && c != '\r') = true := by
            simp [bne_iff_ne]
            exact h2
          simp [stripCore, h1, h2.1, h2.2, List.all_cons, hc, ih]
    | some buf =>
      by_cases hgt : c = '>'
      · by_cases hbe : buf.isEmpty
        · simp [stripCore, hgt, hbe, List.all_cons, ih]
        · simp [stripCore, hgt, hbe, ih]
      · simp [stripCore, hgt, ih]

mutual
theorem noBreaksStripVal : ∀ v : JVal, noBreaksVal (htmlStripper v) = true
  | .str s => stripCore_all s.data none
  | .num _ => rfl
  | .bool _ => rfl
  | .null => rfl
  | .arr xs => noBreaksStripArr xs
  | .obj kvs => noBreaksStripObj kvs

theorem noBreaksStripArr : ∀ xs : JArr, noBreaksArr (htmlStripperArr xs) = true
  | .nil => rfl
  | .cons v rest => by
    simp [htmlStripperArr, noBreaksArr, noBreaksStripVal v, noBreaksStripArr rest]

theorem noBreaksStripObj : ∀ kvs : JObj, noBreaksObj (htmlStripperObj kvs) = true
  | .nil => rfl
  | .cons _ v rest => by
    simp [htmlStripperObj, noBreaksObj, noBreaksStripVal v, noBreaksStripObj rest]
end

/-- C8.  Markup Stripper correctness: the two examples from the claim hold
(`"<b>Recall</b> notice\n"` becomes `"Recall notice"`, and the nested object
example); numbers, booleans and null pass through unchanged; every string
leaf is regex-replaced; arrays and objects are recursed into elementwise;
and after stripping, no string leaf anywhere in the result contains a line
break. -/
theorem c8_markup_stripper :
    (htmlStripper (.str "<b>Recall</b> notice\n") = .str "Recall notice") ∧
    (∀ n : Int, htmlStripper (.num n) = .num n) ∧
    (∀ b : Bool, htmlStripper (.bool b) = .bool b) ∧
    (htmlStripper .null = .null) ∧
    (∀ s : String, htmlStripper (.str s) = .str (stripString s)) ∧
    (∀ xs : JArr, htmlStripper (.arr xs) = .arr (htmlStripperArr xs)) ∧
    (∀ (v : JVal) (xs : JArr),
      htmlStripperArr (.cons v xs) = .cons (htmlStripper v) (htmlStripperArr xs)) ∧
    (∀ kvs : JObj, htmlStripper (.obj kvs) = .obj (htmlStripperObj kvs)) ∧
    (∀ (k : String) (v : JVal) (kvs : JObj),
      htmlStripperObj (.cons k v kvs) = .cons k (htmlStripper v) (htmlStripperObj kvs)) ∧
    (htmlStripper (.obj (objOf [("a", .str "<i>x</i>"),
        ("b", .arr (arrOf [.num 1, .str "<p>y</p>"]))])) =
      .obj (objOf [("a", .str "x"), ("b", .arr (arrOf [.num 1, .str "y"]))])) ∧
    (∀ v : JVal, noBreaksVal (htmlStripper v) = true) :=
  ⟨by decide, fun _ => rfl, fun _ => rfl, rfl, fun _ => rfl, fun _ => rfl,
   fun _ _ => rfl, fun _ => rfl, fun _ _ _ => rfl, by decide, noBreaksStripVal⟩

theorem mapRequestLoop_keysOf :
    ∀ item : JObj, (DataLoader.mapRequestLoop item).keysOf = item.keysOf
  | .nil => rfl
  | .cons k v rest => by
    simp [DataLoader.mapRequestLoop, JObj.keysOf, mapRequestLoop_keysOf rest]

/-- C4 counterexample: the claim that the caller's record object is
unchanged after the mapping call fails on the record `{a: "x"}` — after
`mapRequest` returns, the object holds `{a: {S: "x"}}`. -/
theorem c4_mapper_unchanged_false :
    DataLoader.mapRequestPost (objOf [("a", JVal.str "x")]) ≠ objOf [("a", JVal.str "x")] := by
  decide

/-- C4 amended: `mapRequest` returns the wire-format result — each top-level
property value converted by `Converter.input`, keys and their order
preserved — but not without side effects: the conversion loop assigns
through the argument itself and `return Item` returns that same reference,
so after the call the caller's record object (and the engine's stored data
element, which is the same object) equals the wire-format result rather
than its original value; in particular a record starting with a string
field now starts with a tagged `{S: ...}` object. -/
theorem c4_mapper_wire_format_in_place :
    (DataLoader.mapRequest .nil = .nil) ∧
    (∀ (k : String) (v : JVal) (rest : JObj),
      DataLoader.mapRequest (.cons k v rest) =
        .cons k (converterInput v) (DataLoader.mapRequest rest)) ∧
    (∀ item : JObj, (DataLoader.mapRequest item).keysOf = item.keysOf) ∧
    (∀ item : JObj, DataLoader.mapRequestPost item = DataLoader.mapRequest item) ∧
    (∀ (k s : String) (rest : JObj),
      DataLoader.mapRequestPost (.cons k (.str s) rest) =
        .cons k (.obj (objOf [("S", .str s)])) (DataLoader.mapRequestLoop rest)) :=
  ⟨rfl, fun _ _ _ => rfl, mapRequestLoop_keysOf, fun _ => rfl, fun _ _ _ => rfl⟩

/-- C1 (code-bug demonstration): under a wave-1 result that marks a
non-empty, DynamoDB-shaped `UnprocessedItems` set and an environment whose
later submissions would accept everything, `start` performs exactly one
submission wave in the single-request case (and exactly the two chunk
submissions of wave 1 in the multi-request case), never constructs a retry
loader, and reports completion with the rejected items never resubmitted:
the retry guard tests `.length` on the `UnprocessedItems` object, which is
undefined there. -/
theorem c1_retry_waves_never_run :
    (envRetry.batch 0 = .ok ⟨unprocA⟩ ∧ unprocA.isEmptyB = false) ∧
    DataLoader.start 5 envRetry 0 (.arrData [recA]) TABLE_NAME (some 1) false =
      ([Ev.batchWriteEv ⟨TABLE_NAME, .arrItems [putWrap (.obj (DataLoader.mapRequest recA))]⟩],
       RunOutcome.uploadComplete, 1) ∧
    DataLoader.start 5 envRetry 0 (.arrData recs26) TABLE_NAME (some 1) false =
      ([Ev.batchWriteEv ⟨TABLE_NAME, .arrItems (ps26.take 25)⟩,
        Ev.batchWriteEv ⟨TABLE_NAME, .arrItems (ps26.drop 25)⟩],
       RunOutcome.uploadComplete, 2) := by
  decide

theorem mkLoaderProps_no_dynamoConfig (d : JSData) (t : String) (cat : Option Nat) :
    getProp (mkLoaderProps d t cat) "dynamoConfig" = none := by
  cases cat <;> rfl

theorem runChunks_all_spawnCfgNone (env : LoaderEnv) (t : String) :
    ∀ (cs : List (List JVal)) (c : Nat), ((runChunks env t cs c).1.all spawnCfgNone) = true := by
  intro cs
  induction cs with
  | nil => intro c; rfl
  | cons ch rest ih =>
    intro c
    cases hb : env.batch c with
    | error e => simp [runChunks, hb, spawnCfgNone]
    | ok r =>
      rcases hrc : runChunks env t rest (c + 1) with ⟨evs, c2, res⟩
      have h2 := ih (c + 1)
      rw [hrc] at h2
      cases res <;> simp_all [runChunks, spawnCfgNone]

theorem start_all_spawnCfgNone :
    ∀ (fuel : Nat) (env : LoaderEnv) (c : Nat) (d : JSData) (t : String)
      (cat : Option Nat) (dry : Bool),
      ((DataLoader.start fuel env c d t cat dry).1.all spawnCfgNone) = true := by
  intro fuel
  induction fuel with
  | zero => intro env c d t cat dry; rfl
  | succ n ih =>
    intro env c d t cat dry
    simp only [DataLoader.start]
    cases htab : env.tables with
    | error e => simp
    | ok tl =>
      simp only
      by_cases hmem : TABLE_NAME ∉ tl
      · rw [if_pos hmem]
        by_cases hy : isYes env.promptAnswer
        · rw [if_pos hy]
          cases hcr : env.createRes <;> simp [spawnCfgNone]
        · rw [if_neg hy]; rfl
      · rw [if_neg hmem]
        by_cases hdry : dry
        · rw [if_pos hdry]; simp [spawnCfgNone]
        · rw [if_neg hdry]
          cases hch : chunksOf d with
          | some cs =>
            rcases hrc : runChunks env t cs c with ⟨evs, c2, res⟩
            have h2 := runChunks_all_spawnCfgNone env t cs c
            rw [hrc] at h2
            simp only at h2
            cases res with
            | error e => simpa [hrc] using h2
            | ok results =>
              by_cases hany : results.any (fun r => truthyOpt (r.unprocessedItems.find "length")) <;>
                simp [hrc, hany, h2]
          | none =>
            cases hb : env.batch c with
            | error e => simp [hb, spawnCfgNone]
            | ok r =>
              by_cases hemp : r.unprocessedItems.isEmptyB
              · simp [hb, hemp, spawnCfgNone]
              · by_cases htr : truthyOpt (r.unprocessedItems.find "length")
                · rcases hcs : DataLoader.start n env (c + 1) (.objData r.unprocessedItems) t none false
                    with ⟨cEvs, cOut, c2⟩
                  have h3 := ih env (c + 1) (.objData r.unprocessedItems) t none false
                  rw [hcs] at h3
                  simp only at h3
                  cases cOut <;>
                    simp [hb, hemp, htr, hcs, spawnCfgNone, mkLoaderProps_no_dynamoConfig, h3]
                · simp [hb, hemp, htr, spawnCfgNone]

/-- C9.  Retry-wave client configuration: no constructor assignment ever
creates a `dynamoConfig` instance property, so reading it yields
`undefined`; consequently every retry loader recorded in any run's trace was
constructed with an undefined AWS-configuration argument — and that branch
is not vacuous: the `envSpawn` run really does construct such a loader. -/
theorem c9_retry_config_undefined :
    (∀ (d : JSData) (t : String) (cat : Option Nat),
      getProp (mkLoaderProps d t cat) "dynamoConfig" = none) ∧
    (∀ (fuel : Nat) (env : LoaderEnv) (c : Nat) (d : JSData) (t : String)
       (cat : Option Nat) (dry : Bool),
      ((DataLoader.start fuel env c d t cat dry).1.all spawnCfgNone) = true) ∧
    (Ev.spawnChildEv unprocLen TABLE_NAME none ∈
      (DataLoader.start 3 envSpawn 0 (.arrData [recA]) TABLE_NAME (some 1) false).1) :=
  ⟨mkLoaderProps_no_dynamoConfig, start_all_spawnCfgNone, by decide⟩

theorem runChunks_error_head (env : LoaderEnv) (t : String) (ch : List JVal)
    (rest : List (List JVal)) (c : Nat) (e : JsErr) (herr : env.batch c = .error e) :
    runChunks env t (ch :: rest) c = ([.batchWriteEv ⟨t, .arrItems ch⟩], c + 1, .error e) := by
  simp [runChunks, herr]

/-- C2.  Abort on submission error: in a multi-chunk run (more than 25
records) whose first `batchWriteItem` call rejects, `start` ends in the
failure outcome carrying that cause and its trace holds exactly the first
chunk's submission — the remaining chunks are never submitted (the call
cursor advances by exactly one). -/
theorem c2_abort_on_submission_error (fuel c : Nat) (env : LoaderEnv) (tl : List String)
    (recs : List JObj) (cat : Option Nat) (e : JsErr)
    (htab : env.tables = .ok tl) (hmem : TABLE_NAME ∈ tl)
    (hlen : 25 < recs.length) (herr : env.batch c = .error e) :
    DataLoader.start (fuel + 1) env c (.arrData recs) TABLE_NAME cat false =
      ([Ev.batchWriteEv ⟨TABLE_NAME,
          .arrItems ((recs.map (fun r => putWrap (.obj (DataLoader.mapRequest r)))).take 25)⟩],
       RunOutcome.uploadFailed e, c + 1) := by
  have hne : recs.map (fun r => putWrap (.obj (DataLoader.mapRequest r))) ≠ [] := by
    intro hh
    have h2 := congrArg List.length hh
    simp only [List.length_map, List.length_nil] at h2
    omega
  obtain ⟨x, xs, hxs⟩ := List.exists_cons_of_ne_nil hne
  have hch : chunksOf (JSData.arrData recs) =
      some (((recs.map (fun r => putWrap (.obj (DataLoader.mapRequest r)))).take 25) ::
        spliceGo xs.length ((x :: xs).drop 25)) := by
    simp only [chunksOf, buildItems]
    rw [if_pos (by simpa using hlen)]
    rw [hxs, spliceChunks_eq_cons]
  simp only [DataLoader.start, htab]
  rw [if_neg (by simp [hmem]), if_neg (by simp)]
  simp only [hch]
  rw [runChunks_error_head env TABLE_NAME
      ((recs.map (fun r => putWrap (.obj (DataLoader.mapRequest r)))).take 25)
      (spliceGo xs.length ((x :: xs).drop 25)) c e herr]

/-- Witness for C2: 26 records against `envErr1`, whose first submission
rejects with a throttle error. -/
theorem c2_abort_on_submission_error_witness :
    DataLoader.start 1 envErr1 0 (.arrData recs26) TABLE_NAME (some 1) false =
      ([Ev.batchWriteEv ⟨TABLE_NAME, .arrItems (ps26.take 25)⟩],
       RunOutcome.uploadFailed (.oracleErr "throttle"), 1) :=
  c2_abort_on_submission_error 0 0 envErr1 [TABLE_NAME] recs26 (some 1)
    (.oracleErr "throttle") rfl (by decide) (by decide) rfl

theorem start_dry_no_batch :
    ∀ (fuel : Nat) (env : LoaderEnv) (c : Nat) (d : JSData) (t : String) (cat : Option Nat),
      ((DataLoader.start fuel env c d t cat true).1.all noBatchEv) = true := by
  intro fuel env c d t cat
  cases fuel with
  | zero => rfl
  | succ n =>
    simp only [DataLoader.start]
    cases htab : env.tables with
    | error e => simp
    | ok tl =>
      simp only
      by_cases hmem : TABLE_NAME ∉ tl
      · rw [if_pos hmem]
        by_cases hy : isYes env.promptAnswer
        · rw [if_pos hy]; cases env.createRes <;> simp [noBatchEv]
        · rw [if_neg hy]; rfl
      · rw [if_neg hmem]
        simp [noBatchEv]

/-- C5.  Dry-run isolation: with the target table present, `run(true)`
does nothing but write the constructed request(s) to
`./_raw/{category}-DEBUG.json` (whose file name matches the
`{category}-DEBUG.json` pattern) and return; moreover no dry run — whatever
the table listing, data or environment — ever records a `batchWriteItem`
submission; and the written artifact is the single request itself when the
input fits in one batch, or the list of chunked requests otherwise. -/
theorem c5_dry_run_isolation (fuel c : Nat) (env : LoaderEnv) (tl : List String)
    (data : JSData) (cat : Nat)
    (htab : env.tables = .ok tl) (hmem : TABLE_NAME ∈ tl) :
    (DataLoader.start (fuel + 1) env c data TABLE_NAME (some cat) true =
      ([Ev.writeFileEv ("./_raw/" ++ toString cat ++ "-DEBUG.json")
          (dryContentOf TABLE_NAME data)], RunOutcome.dryRunComplete, c)) ∧
    (∀ (fuel2 c2 : Nat) (env2 : LoaderEnv) (d2 : JSData) (t2 : String) (cat2 : Option Nat),
      ((DataLoader.start fuel2 env2 c2 d2 t2 cat2 true).1.all noBatchEv) = true) ∧
    (∀ recs : List JObj, data = .arrData recs → recs.length ≤ 25 →
      dryContentOf TABLE_NAME data = .single ⟨TABLE_NAME, buildItems data⟩) ∧
    (∀ recs : List JObj, data = .arrData recs → 25 < recs.length →
      dryContentOf TABLE_NAME data =
        .multi ((spliceChunks (recs.map (fun r => putWrap (.obj (DataLoader.mapRequest r))))).map
          (fun ch => ⟨TABLE_NAME, .arrItems ch⟩))) := by
  refine ⟨?_, fun fuel2 c2 env2 d2 t2 cat2 => start_dry_no_batch fuel2 env2 c2 d2 t2 cat2,
          ?_, ?_⟩
  · simp only [DataLoader.start, htab]
    rw [if_neg (by simp [hmem]), if_pos trivial]
    simp [categoryTag]
  · intro recs hd hle
    subst hd
    simp [dryContentOf, chunksOf, buildItems, Nat.not_lt.mpr hle]
  · intro recs hd hgt
    subst hd
    simp [dryContentOf, chunksOf, buildItems, hgt]

/-- Witness for C5 at one concrete record against `envOk`. -/
theorem c5_dry_run_isolation_witness :
    (DataLoader.start 1 envOk 0 (.arrData [recA]) TABLE_NAME (some 1) true =
      ([Ev.writeFileEv ("./_raw/" ++ toString 1 ++ "-DEBUG.json")
          (dryContentOf TABLE_NAME (.arrData [recA]))], RunOutcome.dryRunComplete, 0)) ∧
    (dryContentOf TABLE_NAME (.arrData [recA]) =
      .single ⟨TABLE_NAME, buildItems (.arrData [recA])⟩) :=
  ⟨(c5_dry_run_isolation 0 0 envOk [TABLE_NAME] (.arrData [recA]) 1 rfl (by decide)).1,
   (c5_dry_run_isolation 0 0 envOk [TABLE_NAME] (.arrData [recA]) 1 rfl
      (by decide)).2.2.1 [recA] rfl (by decide)⟩

/-- C7.  Table-missing gate: when the target table name is absent from the
listing, `start` never reaches the upload code — on a confirming answer it
issues exactly one `createTable` call and returns (pending manual
verification), and on a declining answer it returns having done nothing;
in both cases the trace holds no submission and the call cursor is
untouched. -/
theorem c7_table_missing_gate (fuel c : Nat) (env : LoaderEnv) (tl : List String)
    (data : JSData) (cat : Option Nat) (dry : Bool)
    (htab : env.tables = .ok tl) (hmiss : TABLE_NAME ∉ tl) :
    (isYes env.promptAnswer = true → env.createRes = .ok () →
      DataLoader.start (fuel + 1) env c data TABLE_NAME cat dry =
        ([Ev.createTableEv createTableParams], RunOutcome.tableCreationPending, c)) ∧
    (isYes env.promptAnswer = false →
      DataLoader.start (fuel + 1) env c data TABLE_NAME cat dry =
        ([], RunOutcome.aborted, c)) := by
  constructor
  · intro hy hcr
    simp only [DataLoader.start, htab]
    rw [if_pos hmiss, if_pos hy, hcr]
  · intro hn
    simp only [DataLoader.start, htab]
    rw [if_pos hmiss, if_neg (by simp [hn])]

/-- Witness for C7: a confirming and a declining operator against a listing
without the target table. -/
theorem c7_table_missing_gate_witness :
    (DataLoader.start 1 envMissYes 0 (.arrData [recA]) TABLE_NAME (some 1) false =
      ([Ev.createTableEv createTableParams], RunOutcome.tableCreationPending, 0)) ∧
    (DataLoader.start 1 envMissNo 0 (.arrData [recA]) TABLE_NAME (some 1) false =
      ([], RunOutcome.aborted, 0)) :=
  ⟨(c7_table_missing_gate 0 0 envMissYes ["OtherTable"] (.arrData [recA]) (some 1) false
      rfl (by decide)).1 (by decide) rfl,
   (c7_table_missing_gate 0 0 envMissNo ["OtherTable"] (.arrData [recA]) (some 1) false
      rfl (by decide)).2 (by decide)⟩

/-- C10.  Empty-input edge case: with the table present and dry-run off, an
empty record set takes the single-request path and issues exactly one
`batchWriteItem` call whose put-request list for the table is empty — there
is no zero-item short-circuit. -/
theorem c10_empty_input_submits (fuel c : Nat) (env : LoaderEnv) (tl : List String)
    (cat : Option Nat)
    (htab : env.tables = .ok tl) (hmem : TABLE_NAME ∈ tl)
    (hbatch : env.batch c = .ok ⟨.nil⟩) :
    DataLoader.start (fuel + 1) env c (.arrData []) TABLE_NAME cat false =
      ([Ev.batchWriteEv ⟨TABLE_NAME, ReqItems.arrItems []⟩], RunOutcome.uploadComplete, c + 1) := by
  simp only [DataLoader.start, htab]
  rw [if_neg (by simp [hmem]), if_neg (by simp)]
  simp [chunksOf, buildItems, hbatch, JObj.isEmptyB]

/-- Witness for C10 against `envOk`. -/
theorem c10_empty_input_submits_witness :
    DataLoader.start 1 envOk 0 (.arrData []) TABLE_NAME (some 1) false =
      ([Ev.batchWriteEv ⟨TABLE_NAME, ReqItems.arrItems []⟩], RunOutcome.uploadComplete, 1) :=
  c10_empty_input_submits 0 0 envOk [TABLE_NAME] (some 1) rfl (by decide) rfl

theorem recentLoop_log (f : Nat → Except JsErr (List JVal)) :
    ∀ (cats : List Nat) (k : Nat) (e : JsErr), k ∈ cats → f k = .error e →
      ∃ e2, StageEv.stageLogErrorEv e2 ∈ getRecentLoop f cats := by
  intro cats
  induction cats with
  | nil => intro k e hk _; simp at hk
  | cons i rest ih =>
    intro k e hk hf
    rcases hi : f i with ei | di
    · exact ⟨ei, by simp [getRecentLoop, hi]⟩
    · rcases List.mem_cons.mp hk with rfl | hk2
      · rw [hf] at hi; simp at hi
      · obtain ⟨e2, hm⟩ := ih k e hk2 hf
        exact ⟨e2, by simp [getRecentLoop, hi, hm]⟩

theorem recentLoop_fetch_mem (f : Nat → Except JsErr (List JVal)) :
    ∀ (cats : List Nat) (j : Nat), StageEv.fetchEv j ∈ getRecentLoop f cats →
      ∃ pre post, cats = pre ++ j :: post ∧ ∀ i ∈ pre, ∃ d, f i = .ok d := by
  intro cats
  induction cats with
  | nil => intro j h; simp [getRecentLoop] at h
  | cons i rest ih =>
    intro j h
    rcases hi : f i with ei | di
    · simp [getRecentLoop, hi] at h
      exact ⟨[], rest, by simp [h], by simp⟩
    · simp only [getRecentLoop, hi, List.mem_cons] at h
      rcases h with h1 | h2
      · have hji : j = i := by simpa using h1
        exact ⟨[], rest, by simp [hji], by simp⟩
      rcases h2 with h2 | h3
      · exact absurd h2 (by simp)
      · obtain ⟨pre, post, hsplit, hok⟩ := ih j h3
        refine ⟨i :: pre, post, by simp [hsplit], ?_⟩
        intro i2 hi2
        rcases List.mem_cons.mp hi2 with rfl | hi3
        · exact ⟨di, hi⟩
        · exact hok i2 hi3

theorem recentLoop_stop (f : Nat → Except JsErr (List JVal)) (cats : List Nat)
    (hsort : cats.Pairwise (· < ·)) (k j : Nat) (e : JsErr)
    (hk : k ∈ cats) (hf : f k = .error e) (hj : k < j) :
    StageEv.fetchEv j ∉ getRecentLoop f cats := by
  intro hmem
  obtain ⟨pre, post, hsplit, hok⟩ := recentLoop_fetch_mem f cats j hmem
  subst hsplit
  rcases List.mem_append.mp hk with hpre | hrest
  · obtain ⟨d, hd⟩ := hok k hpre
    rw [hd] at hf
    simp at hf
  · rcases List.mem_cons.mp hrest with rfl | hpost
    · omega
    · have hpw := (List.pairwise_append.mp hsort).2.1
      have hjk : j < k := (List.pairwise_cons.mp hpw).1 k hpost
      omega

theorem cleanLoop_log (rd : Nat → Except JsErr (List JVal)) :
    ∀ (cats : List Nat) (k : Nat) (e : JsErr), k ∈ cats → rd k = .error e →
      ∃ e2, StageEv.stageLogErrorEv e2 ∈ cleanLoop rd cats := by
  intro cats
  induction cats with
  | nil => intro k e hk _; simp at hk
  | cons i rest ih =>
    intro k e hk hf
    rcases hi : rd i with ei | di
    · exact ⟨ei, by simp [cleanLoop, hi]⟩
    · rcases List.mem_cons.mp hk with rfl | hk2
      · rw [hf] at hi; simp at hi
      · obtain ⟨e2, hm⟩ := ih k e hk2 hf
        exact ⟨e2, by simp [cleanLoop, hi, hm]⟩

theorem cleanLoop_read_mem (rd : Nat → Except JsErr (List JVal)) :
    ∀ (cats : List Nat) (j : Nat), StageEv.readFileEv j ∈ cleanLoop rd cats →
      ∃ pre post, cats = pre ++ j :: post ∧ ∀ i ∈ pre, ∃ d, rd i = .ok d := by
  intro cats
  induction cats with
  | nil => intro j h; simp [cleanLoop] at h
  | cons i rest ih =>
    intro j h
    rcases hi : rd i with ei | di
    · simp [cleanLoop, hi] at h
      exact ⟨[], rest, by simp [h], by simp⟩
    · simp only [cleanLoop, hi, List.mem_cons] at h
      rcases h with h1 | h2
      · have hji : j = i := by simpa using h1
        exact ⟨[], rest, by simp [hji], by simp⟩
      rcases h2 with h2 | h3
      · exact absurd h2 (by simp)
      · obtain ⟨pre, post, hsplit, hok⟩ := ih j h3
        refine ⟨i :: pre, post, by simp [hsplit], ?_⟩
        intro i2 hi2
        rcases List.mem_cons.mp hi2 with rfl | hi3
        · exact ⟨di, hi⟩
        · exact hok i2 hi3

theorem cleanLoop_stop (rd : Nat → Except JsErr (List JVal)) (cats : List Nat)
    (hsort : cats.Pairwise (· < ·)) (k j : Nat) (e : JsErr)
    (hk : k ∈ cats) (hf : rd k = .error e) (hj : k < j) :
    StageEv.readFileEv j ∉ cleanLoop rd cats := by
  intro hmem
  obtain ⟨pre, post, hsplit, hok⟩ := cleanLoop_read_mem rd cats j hmem
  subst hsplit
  rcases List.mem_append.mp hk with hpre | hrest
  · obtain ⟨d, hd⟩ := hok k hpre
    rw [hd] at hf
    simp at hf
  · rcases List.mem_cons.mp hrest with rfl | hpost
    · omega
    · have hpw := (List.pairwise_append.mp hsort).2.1
      have hjk : j < k := (List.pairwise_cons.mp hpw).1 k hpost
      omega

/-- C6 counterexample: with the fetch (resp. read) oracle failing exactly on
category 2, the error is caught and logged — but categories 3 and 4 are
never attempted, refuting the claim that the remaining sibling categories
still proceed. -/
theorem c6_siblings_proceed_false :
    (StageEv.stageLogErrorEv (.oracleErr "network") ∈ getRecentDataModel fetchFail2 ∧
     StageEv.fetchEv 3 ∉ getRecentDataModel fetchFail2 ∧
     StageEv.fetchEv 4 ∉ getRecentDataModel fetchFail2) ∧
    (StageEv.stageLogErrorEv (.oracleErr "ENOENT") ∈ cleanDataModel readFail2 ∧
     StageEv.readFileEv 3 ∉ cleanDataModel readFail2 ∧
     StageEv.readFileEv 4 ∉ cleanDataModel readFail2) := by
  decide

/-- C6 amended: when fetching (or cleaning) fails for one category, the
error is caught and logged — but the `try`/`catch` wraps the whole 1..4
loop, so the entire stage is abandoned: no category after the failing one
is attempted in that stage. -/
theorem c6_stage_abandons_remaining (f rd : Nat → Except JsErr (List JVal))
    (k m : Nat) (e e2 : JsErr)
    (hk : k ∈ ([1, 2, 3, 4] : List Nat)) (hf : f k = .error e)
    (hm : m ∈ ([1, 2, 3, 4] : List Nat)) (hrd : rd m = .error e2) :
    ((∃ e3, StageEv.stageLogErrorEv e3 ∈ getRecentDataModel f) ∧
     ∀ j, k < j → StageEv.fetchEv j ∉ getRecentDataModel f) ∧
    ((∃ e3, StageEv.stageLogErrorEv e3 ∈ cleanDataModel rd) ∧
     ∀ j, m < j → StageEv.readFileEv j ∉ cleanDataModel rd) :=
  ⟨⟨recentLoop_log f _ k e hk hf,
    fun j hj => recentLoop_stop f _ (by decide) k j e hk hf hj⟩,
   ⟨cleanLoop_log rd _ m e2 hm hrd,
    fun j hj => cleanLoop_stop rd _ (by decide) m j e2 hm hrd hj⟩⟩

/-- Witness for C6 (amended) at the concrete failing oracles. -/
theorem c6_stage_abandons_remaining_witness :
    ((∃ e3, StageEv.stageLogErrorEv e3 ∈ getRecentDataModel fetchFail2) ∧
     ∀ j, 2 < j → StageEv.fetchEv j ∉ getRecentDataModel fetchFail2) ∧
    ((∃ e3, StageEv.stageLogErrorEv e3 ∈ cleanDataModel readFail2) ∧
     ∀ j, 2 < j → StageEv.readFileEv j ∉ cleanDataModel readFail2) :=
  c6_stage_abandons_remaining fetchFail2 readFail2 2 2
    (.oracleErr "network") (.oracleErr "ENOENT")
    (by decide) (by decide) (by decide) (by decide)
